import Mathlib

/-!
Verification of the position/selection model of the swipe-carousel component
(`src/index.tsx`).  Numeric values (pixel offsets, spacing, velocities) are
modelled as rationals; item lists are Lean lists; the caller-supplied
`getItemId` extractor is an arbitrary function into a type with decidable
equality.  Animated transitions (`withSpring`) are modelled by their target
value, i.e. the at-rest value the offset settles on.  The single `onItemChange`
call site is modelled by an `Option` result: `some item` means the callback
fires (once) with `item`, `none` means it does not fire.
-/

namespace Carousel

/-- `VELOCITY_THRESHOLD = 500` from the source. -/
def VELOCITY_THRESHOLD : ℚ := 500

/-- `MAX_OPACITY = 1` from the source. -/
def MAX_OPACITY : ℚ := 1

/-- `MIN_OPACITY = 0.6` from the source. -/
def MIN_OPACITY : ℚ := 6 / 10

/-- The component's mutable shared values: `translateX` (the strip offset, in
pixels) and `currentIndex` (the cached index). -/
structure CState where
  translateX : ℚ
  currentIndex : ℤ
  deriving DecidableEq, Repr

/-- JavaScript `Array.prototype.findIndex`: index of the first element
satisfying `p`, or `-1` when none does. -/
def findIndexJS (p : α → Bool) : List α → ℤ
  | [] => -1
  | a :: l =>
    if p a then 0
    else if findIndexJS p l = -1 then -1 else findIndexJS p l + 1

/-- `Math.max(0, Math.min(index, items.length - 1))`, the index clamp used by
`snapToIndex` and `updateSelectedItem`. -/
def clampIndexJS (len : ℕ) (index : ℤ) : ℤ :=
  max 0 (min index ((len : ℤ) - 1))

/-- Initialization of the shared values in `Carousel`:
`initialIndex = items.findIndex(item => getItemId(item) === getItemId(selectedItem))`,
`translateX = -initialIndex * itemSpacing`,
`currentIndex = initialIndex >= 0 ? initialIndex : 0`. -/
def initialState (items : List α) (getItemId : α → ι) [DecidableEq ι]
    (selectedItem : α) (itemSpacing : ℚ) : CState :=
  let initialIndex :=
    findIndexJS (fun item => decide (getItemId item = getItemId selectedItem)) items
  { translateX := -(initialIndex : ℚ) * itemSpacing
    currentIndex := if initialIndex ≥ 0 then initialIndex else 0 }

/-- `snapToIndex`: clamps the index to `[0, items.length - 1]`, springs the
offset to `-clampedIndex * itemSpacing` and caches the clamped index. -/
def snapToIndex (len : ℕ) (itemSpacing : ℚ) (index : ℤ) : CState :=
  let clampedIndex := clampIndexJS len index
  { translateX := -(clampedIndex : ℚ) * itemSpacing
    currentIndex := clampedIndex }

/-- `updateSelectedItem`: clamps the index, looks the item up, and fires
`onItemChange(item)` only when the lookup is defined and the item's id differs
from the selected item's id.  The returned option is the fired callback
argument (`none` = callback not fired). -/
def updateSelectedItem (items : List α) (getItemId : α → ι) [DecidableEq ι]
    (selectedItem : α) (index : ℤ) : Option α :=
  let clampedIndex := clampIndexJS items.length index
  match items[clampedIndex.toNat]? with
  | none => none
  | some item =>
    if getItemId item ≠ getItemId selectedItem then some item else none

/-- `panGesture.onUpdate`: live offset `-currentIndex*itemSpacing + translationX`
pushed through `Math.max(minTranslateX, Math.min(maxTranslateX, ·))` with
`minTranslateX = -(items.length - 1) * itemSpacing` and `maxTranslateX = 0`. -/
def onUpdate (len : ℕ) (itemSpacing : ℚ) (st : CState) (translationX : ℚ) :
    CState :=
  let newTranslateX := -(st.currentIndex : ℚ) * itemSpacing + translationX
  let minTranslateX := -((len : ℚ) - 1) * itemSpacing
  let maxTranslateX : ℚ := 0
  { st with translateX := max minTranslateX (min maxTranslateX newTranslateX) }

/-- The target-index computation of `panGesture.onEnd`:
`Math.round(-translateX / itemSpacing)`, nudged by `±1` (bounded on the nudged
side) when `|velocity|` exceeds the threshold. -/
def onEndTargetIndex (len : ℕ) (itemSpacing : ℚ) (translateX velocity : ℚ) :
    ℤ :=
  let targetIndex := round (-translateX / itemSpacing)
  if |velocity| > VELOCITY_THRESHOLD then
    if velocity < 0 then min (targetIndex + 1) ((len : ℤ) - 1)
    else max (targetIndex - 1) 0
  else targetIndex

/-- `panGesture.onEnd`: computes the target index, snaps to it, and schedules
`updateSelectedItem` with it.  Returns the new state together with the
`onItemChange` invocation (if any). -/
def onEnd (items : List α) (getItemId : α → ι) [DecidableEq ι]
    (selectedItem : α) (itemSpacing : ℚ) (st : CState) (velocityX : ℚ) :
    CState × Option α :=
  let targetIndex := onEndTargetIndex items.length itemSpacing st.translateX velocityX
  (snapToIndex items.length itemSpacing targetIndex,
   updateSelectedItem items getItemId selectedItem targetIndex)

/-- The `useEffect` resynchronization: when the selected item's id changed,
record it and — if the id is found in the list — spring the offset to that
index and cache it.  Returns the new `previousItemId` ref, the new state, and
the `onItemChange` invocation made by this path (the effect body contains no
`onItemChange` call, hence always `none`). -/
def resyncEffect (items : List α) (getItemId : α → ι) [DecidableEq ι]
    (selectedItem : α) (itemSpacing : ℚ) (previousItemId : ι) (st : CState) :
    ι × CState × Option α :=
  let currentItemId := getItemId selectedItem
  if previousItemId ≠ currentItemId then
    let index :=
      findIndexJS (fun item => decide (getItemId item = currentItemId)) items
    if index ≠ -1 then
      (currentItemId,
       { currentIndex := index, translateX := -(index : ℚ) * itemSpacing },
       none)
    else (currentItemId, st, none)
  else (previousItemId, st, none)

/-- `reanimated`'s `interpolate(x, [inA, inB], [outA, outB], Extrapolation.CLAMP)`
for a single monotone segment: the input is clamped into `[inA, inB]` and
mapped linearly. -/
def interpolateClamp (x inA inB outA outB : ℚ) : ℚ :=
  let xc := max inA (min inB x)
  outA + (xc - inA) / (inB - inA) * (outB - outA)

/-- The `distanceFromCenter` local of `CarouselItem`'s `animatedStyle`:
`|basePosition + translateX + index*itemSpacing + itemSize/2 - CENTER_X|`
with `basePosition = CENTER_X - itemSize/2`. -/
def itemDistanceFromCenter (screenWidth itemSize itemSpacing : ℚ) (index : ℕ)
    (translateX : ℚ) : ℚ :=
  let CENTER_X := screenWidth / 2
  let CENTER_OFFSET := CENTER_X - itemSize / 2
  let basePosition := CENTER_OFFSET
  let offset := (index : ℚ) * itemSpacing
  let position := basePosition + translateX + offset
  |position + itemSize / 2 - CENTER_X|

/-- The visual style computed by `CarouselItem`'s `animatedStyle` worklet. -/
structure ItemStyle where
  position : ℚ
  scale : ℚ
  opacity : ℚ
  deriving DecidableEq, Repr

/-- `CarouselItem`'s `animatedStyle`: horizontal draw position, scale and
opacity, as a pure function of the item's static index and the shared
offset. -/
def animatedStyle (screenWidth itemSize itemSpacing minScale maxScale : ℚ)
    (index : ℕ) (translateX : ℚ) : ItemStyle :=
  let CENTER_X := screenWidth / 2
  let CENTER_OFFSET := CENTER_X - itemSize / 2
  let basePosition := CENTER_OFFSET
  let offset := (index : ℚ) * itemSpacing
  let position := basePosition + translateX + offset
  let distanceFromCenter := itemDistanceFromCenter screenWidth itemSize itemSpacing index translateX
  let maxDistance := itemSpacing
  { position := position
    scale := interpolateClamp distanceFromCenter 0 maxDistance maxScale minScale
    opacity := interpolateClamp distanceFromCenter 0 maxDistance MAX_OPACITY MIN_OPACITY }

/-- `items.map((item, index) => … renderItem(item, index, translateX) …)`
starting at index `k`: the list of `(item, index)` argument pairs passed to the
render-item callback. -/
def renderInvocationsFrom (k : ℕ) : List α → List (α × ℕ)
  | [] => []
  | a :: l => (a, k) :: renderInvocationsFrom (k + 1) l

/-- The render pass of `Carousel`: one `renderItem` invocation per item, in
list order, with the item's index. -/
def renderInvocations (items : List α) : List (α × ℕ) :=
  renderInvocationsFrom 0 items

/-- The spec's at-rest invariant: the offset equals `-index * spacing` for the
cached index, and the cached index lies in `[0, length - 1]`. -/
def restInvariant (len : ℕ) (s : ℚ) (st : CState) : Prop :=
  st.translateX = -(st.currentIndex : ℚ) * s ∧
  0 ≤ st.currentIndex ∧ st.currentIndex ≤ (len : ℤ) - 1

instance (len : ℕ) (s : ℚ) (st : CState) : Decidable (restInvariant len s st) := by
  unfold restInvariant; infer_instance

/-- The spec's wording of the per-item interpolation, for comparison with the
code's `interpolateClamp`: the linear interpolation from `y0` at distance `0`
to `y1` at distance `s`, held constant at `y1` for distances beyond `s`. -/
def specLinearClamp (d s y0 y1 : ℚ) : ℚ :=
  if s ≤ d then y1 else y0 + d / s * (y1 - y0)

theorem findIndexJS_ge_neg_one (p : α → Bool) (l : List α) :
    -1 ≤ findIndexJS p l := by
  induction l with
  | nil => simp [findIndexJS]
  | cons a l ih =>
    simp only [findIndexJS]
    split
    · norm_num
    · split <;> omega

theorem findIndexJS_lt_length (p : α → Bool) (l : List α) :
    findIndexJS p l < l.length := by
  induction l with
  | nil => simp [findIndexJS]
  | cons a l ih =>
    simp only [findIndexJS, List.length_cons]
    split
    · push_cast; omega
    · split <;> push_cast <;> omega

theorem findIndexJS_eq_neg_one_of_forall (p : α → Bool) (l : List α)
    (h : ∀ a ∈ l, p a = false) : findIndexJS p l = -1 := by
  induction l with
  | nil => rfl
  | cons a l ih =>
    have ha : p a = false := h a (List.mem_cons_self a l)
    have hl : findIndexJS p l = -1 := ih fun x hx => h x (List.mem_cons_of_mem a hx)
    simp [findIndexJS, ha, hl]

theorem findIndexJS_getElem? (p : α → Bool) (l : List α)
    (h : findIndexJS p l ≠ -1) :
    ∃ a, l[(findIndexJS p l).toNat]? = some a ∧ p a = true := by
  induction l with
  | nil => simp [findIndexJS] at h
  | cons a l ih =>
    by_cases ha : p a
    · exact ⟨a, by simp [findIndexJS, ha], ha⟩
    · have ha' : p a = false := by simpa using ha
      by_cases hl : findIndexJS p l = -1
      · simp [findIndexJS, ha', hl] at h
      · obtain ⟨b, hb, hpb⟩ := ih hl
        refine ⟨b, ?_, hpb⟩
        have h0 : 0 ≤ findIndexJS p l := by
          have := findIndexJS_ge_neg_one p l; omega
        have htn : (findIndexJS p l + 1).toNat = (findIndexJS p l).toNat + 1 := by
          omega
        simp [findIndexJS, ha', hl, htn, hb]

theorem clampIndexJS_nonneg (len : ℕ) (idx : ℤ) : 0 ≤ clampIndexJS len idx :=
  le_max_left 0 _

theorem clampIndexJS_le (len : ℕ) (idx : ℤ) (h : 1 ≤ len) :
    clampIndexJS len idx ≤ (len : ℤ) - 1 := by
  unfold clampIndexJS; omega

theorem clampIndexJS_toNat_lt (len : ℕ) (idx : ℤ) (h : 1 ≤ len) :
    (clampIndexJS len idx).toNat < len := by
  unfold clampIndexJS at *; omega

theorem getElem?_clampIndexJS (items : List α) (idx : ℤ) (h : items ≠ []) :
    ∃ it, items[(clampIndexJS items.length idx).toNat]? = some it := by
  have hlen : 1 ≤ items.length := List.length_pos.mpr h
  exact ⟨_, List.getElem?_eq_getElem (clampIndexJS_toNat_lt items.length idx hlen)⟩

theorem renderInvocationsFrom_length (k : ℕ) (l : List α) :
    (renderInvocationsFrom k l).length = l.length := by
  induction l generalizing k with
  | nil => rfl
  | cons a l ih => simp [renderInvocationsFrom, ih]

theorem renderInvocationsFrom_getElem? (k i : ℕ) (l : List α) :
    (renderInvocationsFrom k l)[i]? = l[i]?.map fun a => (a, k + i) := by
  induction l generalizing k i with
  | nil => simp [renderInvocationsFrom]
  | cons a l ih =>
    cases i with
    | zero => simp [renderInvocationsFrom]
    | succ i =>
      have harith : k + 1 + i = k + (i + 1) := by omega
      simp only [renderInvocationsFrom, List.getElem?_cons_succ, ih, harith]

/-- Claim C3: for every item list length `n`, state with current index `i`,
spacing `s` and drag delta `d`, the live offset after a drag update equals
`-i*s + d` clamped (by `max`/`min`) to `[-(n-1)*s, 0]`; for `n ≥ 1` and
`s ≥ 0` the resulting offset indeed lies in that interval, and the update
never rejects the input (it is total and leaves the cached index unchanged). -/
theorem C3_live_offset_clamped (len : ℕ) (s d : ℚ) (st : CState)
    (hn : 1 ≤ len) (hs : 0 ≤ s) :
    (onUpdate len s st d).translateX =
      max (-((len : ℚ) - 1) * s) (min 0 (-(st.currentIndex : ℚ) * s + d)) ∧
    (onUpdate len s st d).currentIndex = st.currentIndex ∧
    -((len : ℚ) - 1) * s ≤ (onUpdate len s st d).translateX ∧
    (onUpdate len s st d).translateX ≤ 0 := by
  refine ⟨rfl, rfl, le_max_left _ _, ?_⟩
  have h1 : -((len : ℚ) - 1) * s ≤ 0 := by
    have : (0 : ℚ) ≤ ((len : ℚ) - 1) * s := by
      apply mul_nonneg _ hs
      have : (1 : ℚ) ≤ (len : ℚ) := by exact_mod_cast hn
      linarith
    linarith
  exact max_le h1 (min_le_left _ _)

/-- Witness for C3 at a concrete input: three items, spacing 200, current
index 0, drag delta -100. -/
theorem C3_witness :
    (onUpdate 3 200 ⟨0, 0⟩ (-100)).translateX =
      max (-((3 : ℚ) - 1) * 200) (min 0 (-((0 : ℤ) : ℚ) * 200 + -100)) ∧
    (onUpdate 3 200 ⟨0, 0⟩ (-100)).currentIndex = (0 : ℤ) ∧
    -((3 : ℚ) - 1) * 200 ≤ (onUpdate 3 200 ⟨0, 0⟩ (-100)).translateX ∧
    (onUpdate 3 200 ⟨0, 0⟩ (-100)).translateX ≤ 0 :=
  C3_live_offset_clamped 3 200 (-100) ⟨0, 0⟩ (by norm_num) (by norm_num)

/-- Claim C9: one render pass over a non-empty item list invokes the
render-item callback exactly once per item — the invocation list has the same
length as the item list — and the `i`-th invocation receives the item at index
`i` together with `i`. -/
theorem C9_render_once_per_item (items : List α) (hn : items ≠ []) :
    (renderInvocations items).length = items.length ∧
    ∀ i : ℕ, i < items.length →
      (renderInvocations items)[i]? = items[i]?.map fun a => (a, i) := by
  refine ⟨renderInvocationsFrom_length 0 items, fun i _ => ?_⟩
  simpa using renderInvocationsFrom_getElem? 0 i items

/-- Witness for C9 at a concrete input: the two-item list `[10, 20]`. -/
theorem C9_witness :
    (renderInvocations [10, 20]).length = ([10, 20] : List ℕ).length ∧
    (renderInvocations [10, 20])[1]? = (([10, 20] : List ℕ)[1]?).map fun a => (a, 1) := by
  obtain ⟨h1, h2⟩ := C9_render_once_per_item ([10, 20] : List ℕ) (by decide)
  exact ⟨h1, h2 1 (by decide)⟩

/-- Claim C10: whenever the drag-release path fires `onItemChange`, its
argument is an element of the item list, namely the item found at the clamped
target index; and when the (guarded) list lookup is undefined — e.g. for the
empty list — the call is suppressed rather than made with a missing value. -/
theorem C10_callback_argument_in_list (items : List α) (getItemId : α → ι)
    [DecidableEq ι] (selectedItem : α) (idx : ℤ) :
    (∀ a, updateSelectedItem items getItemId selectedItem idx = some a →
       a ∈ items ∧ items[(clampIndexJS items.length idx).toNat]? = some a) ∧
    (items[(clampIndexJS items.length idx).toNat]? = none →
       updateSelectedItem items getItemId selectedItem idx = none) := by
  unfold updateSelectedItem
  constructor
  · intro a ha
    rcases hget : items[(clampIndexJS items.length idx).toNat]? with _ | it
    · simp [hget] at ha
    · simp only [hget] at ha
      split at ha
      · rw [Option.some_inj] at ha
        subst ha
        exact ⟨List.getElem?_mem hget, rfl⟩
      · cases ha
  · intro hnone
    simp [hnone]

/-- Witness for C10 at a concrete input: list `[5, 6]`, selected id `7`,
release index `1`; the callback fires with `6`, an element of the list. -/
theorem C10_witness :
    (6 : ℕ) ∈ [5, 6] ∧
    ([5, 6] : List ℕ)[(clampIndexJS 2 1).toNat]? = some 6 :=
  (C10_callback_argument_in_list [5, 6] id 7 1).1 6 (by decide)

/-- Claim C1: on drag release over a non-empty list, the snap target index is
`round(-offset / s)` when `|v| ≤ 500`, nudged by `+1` when `v < 0` and by `-1`
when `v > 0` once `|v|` exceeds `500`, in every case clamped to
`[0, n-1]`; the offset is then set to animate to `-target * s` and the cached
index becomes `target`. -/
theorem C1_drag_release_snap_target (items : List α) (getItemId : α → ι)
    [DecidableEq ι] (selectedItem : α) (s : ℚ) (st : CState) (v : ℚ)
    (hn : items ≠ []) (target : ℤ)
    (htarget : target =
      max 0 (min (if |v| ≤ 500 then round (-st.translateX / s)
          else if v < 0 then round (-st.translateX / s) + 1
          else round (-st.translateX / s) - 1)
        ((items.length : ℤ) - 1))) :
    (onEnd items getItemId selectedItem s st v).1.translateX =
      -(target : ℚ) * s ∧
    (onEnd items getItemId selectedItem s st v).1.currentIndex = target := by
  have hn1 : 1 ≤ (items.length : ℤ) := by
    have := List.length_pos.mpr hn
    omega
  have key : clampIndexJS items.length
      (onEndTargetIndex items.length s st.translateX v) = target := by
    subst htarget
    unfold onEndTargetIndex clampIndexJS VELOCITY_THRESHOLD
    generalize round (-st.translateX / s) = t
    by_cases hv : |v| > 500
    · by_cases hv0 : v < 0
      · simp only [if_pos hv, if_pos hv0, if_neg (not_le.mpr hv)]
        omega
      · simp only [if_pos hv, if_neg hv0, if_neg (not_le.mpr hv)]
        omega
    · simp only [if_neg hv, if_pos (not_lt.mp hv)]
  have h1 : (onEnd items getItemId selectedItem s st v).1 =
      snapToIndex items.length s
        (onEndTargetIndex items.length s st.translateX v) := rfl
  rw [h1]
  unfold snapToIndex
  rw [key]
  exact ⟨rfl, rfl⟩

/-- Witness for C1 at a concrete input: three items, spacing `200`, offset
`-250`, release velocity `0`; the base index `round(250/200) = 1` is the
target, the offset animates to `-200`. -/
theorem C1_witness :
    (onEnd [0, 1, 2] id (0 : ℕ) 200 ⟨-250, 1⟩ 0).1.translateX =
      -((1 : ℤ) : ℚ) * 200 ∧
    (onEnd [0, 1, 2] id (0 : ℕ) 200 ⟨-250, 1⟩ 0).1.currentIndex = 1 := by
  refine C1_drag_release_snap_target [0, 1, 2] id (0 : ℕ) 200 ⟨-250, 1⟩ 0
    (by decide) 1 ?_
  norm_num [round_eq]

/-- Claim C2: after a completed drag over a non-empty list resolves to its
target index, `onItemChange` fires (exactly once, with the item at that
index) iff that item's id differs from the selected item's id, and does not
fire iff the ids agree. -/
theorem C2_change_callback_iff (items : List α) (getItemId : α → ι)
    [DecidableEq ι] (selectedItem : α) (s : ℚ) (st : CState) (v : ℚ)
    (hn : items ≠ []) :
    ∃ it, items[(clampIndexJS items.length
        (onEndTargetIndex items.length s st.translateX v)).toNat]? = some it ∧
      ((onEnd items getItemId selectedItem s st v).2 = some it ↔
        getItemId it ≠ getItemId selectedItem) ∧
      ((onEnd items getItemId selectedItem s st v).2 = none ↔
        getItemId it = getItemId selectedItem) := by
  obtain ⟨it, hit⟩ := getElem?_clampIndexJS items
    (onEndTargetIndex items.length s st.translateX v) hn
  have h2 : (onEnd items getItemId selectedItem s st v).2 =
      updateSelectedItem items getItemId selectedItem
        (onEndTargetIndex items.length s st.translateX v) := rfl
  refine ⟨it, hit, ?_, ?_⟩ <;>
    rw [h2] <;>
    simp only [updateSelectedItem, hit] <;>
    by_cases hid : getItemId it = getItemId selectedItem <;>
    simp [hid]

/-- Witness for C2 at a concrete input: items `[7, 8]` with identity ids,
selected id `7`, offset `-200`, spacing `200`, velocity `0`; the drag resolves
to index `1`, whose id `8` differs, so the callback fires with `8`. -/
theorem C2_witness :
    (onEnd [7, 8] id (7 : ℕ) 200 ⟨-200, 1⟩ 0).2 = some 8 := by
  obtain ⟨it, hit, hsome, hnone⟩ :=
    C2_change_callback_iff [7, 8] id (7 : ℕ) 200 ⟨-200, 1⟩ 0 (by decide)
  have hidx : clampIndexJS ([7, 8] : List ℕ).length
      (onEndTargetIndex ([7, 8] : List ℕ).length 200
        (CState.translateX ⟨-200, 1⟩) 0) = 1 := by
    unfold onEndTargetIndex VELOCITY_THRESHOLD clampIndexJS
    norm_num [round_eq]
  rw [hidx] at hit
  simp only [Int.toNat_one, List.getElem?_cons_succ, List.getElem?_cons_zero,
    Option.some_inj] at hit
  subst hit
  exact hsome.mpr (by decide)

/-- Claim C4: the prop-resynchronization effect never fires `onItemChange`
(for any prop change), and when the selected item's id changed and is found in
the list at index `i`, the effect updates exactly the offset (to `-i * s`) and
the cached index (to `i`), recording the new id. -/
theorem C4_resync_no_callback (items : List α) (getItemId : α → ι)
    [DecidableEq ι] (selectedItem : α) (s : ℚ) (previousItemId : ι)
    (st : CState) :
    (resyncEffect items getItemId selectedItem s previousItemId st).2.2 =
      none ∧
    (∀ i : ℤ, previousItemId ≠ getItemId selectedItem →
      findIndexJS (fun item => decide (getItemId item = getItemId selectedItem))
          items = i →
      i ≠ -1 →
      (resyncEffect items getItemId selectedItem s previousItemId st).2.1 =
        { translateX := -(i : ℚ) * s, currentIndex := i } ∧
      (resyncEffect items getItemId selectedItem s previousItemId st).1 =
        getItemId selectedItem) := by
  constructor
  · simp only [resyncEffect]
    split
    · split <;> rfl
    · rfl
  · intro i hprev hfind hne
    simp only [resyncEffect, hfind, if_pos hprev, if_pos hne]
    exact ⟨trivial, trivial⟩

/-- Witness for C4 at a concrete input: items `[4, 5]` with identity ids,
selected id changed from `4` to `5`, which sits at index `1`, spacing `100`:
no callback, state resynchronized to index `1`. -/
theorem C4_witness :
    (resyncEffect [4, 5] id (5 : ℕ) 100 4 ⟨0, 0⟩).2.2 = none ∧
    (resyncEffect [4, 5] id (5 : ℕ) 100 4 ⟨0, 0⟩).2.1 =
      { translateX := -((1 : ℤ) : ℚ) * 100, currentIndex := 1 } ∧
    (resyncEffect [4, 5] id (5 : ℕ) 100 4 ⟨0, 0⟩).1 = 5 := by
  obtain ⟨h1, h2⟩ := C4_resync_no_callback [4, 5] id (5 : ℕ) 100 4 ⟨0, 0⟩
  obtain ⟨h3, h4⟩ := h2 1 (by decide) (by decide) (by decide)
  exact ⟨h1, h3, h4⟩

/-- Claim C6: for the empty item list there are no render-item invocations and
`onItemChange` never fires — not from `updateSelectedItem` at any index nor
from any drag release — and a drag update leaves the initial state unchanged,
so the gesture has no observable effect. -/
theorem C6_empty_list (getItemId : α → ι) [DecidableEq ι] (selectedItem : α)
    (s : ℚ) (hs : 0 ≤ s) :
    renderInvocations ([] : List α) = [] ∧
    (∀ idx : ℤ, updateSelectedItem [] getItemId selectedItem idx = none) ∧
    (∀ st v, (onEnd [] getItemId selectedItem s st v).2 = none) ∧
    (∀ d, onUpdate 0 s (initialState [] getItemId selectedItem s) d =
       initialState [] getItemId selectedItem s) := by
  have hupd : ∀ idx : ℤ,
      updateSelectedItem ([] : List α) getItemId selectedItem idx = none := by
    intro idx
    unfold updateSelectedItem
    simp
  refine ⟨rfl, hupd,
    fun st v => hupd (onEndTargetIndex (List.length ([] : List α)) s st.translateX v),
    fun d => ?_⟩
  have hinit : initialState ([] : List α) getItemId selectedItem s =
      ⟨s, 0⟩ := by
    unfold initialState findIndexJS
    norm_num
  rw [hinit]
  unfold onUpdate
  simp only [CState.mk.injEq, and_true]
  have hmin : min (0 : ℚ) (-((0 : ℤ) : ℚ) * s + d) ≤ s := by
    have := min_le_left (0 : ℚ) (-((0 : ℤ) : ℚ) * s + d)
    linarith
  have hcast : -(((0 : ℕ) : ℚ) - 1) * s = s := by norm_num
  rw [hcast]
  exact max_eq_left hmin

/-- Witness for C6 at a concrete input: empty `ℕ` list, spacing `200`,
selected id `0`, probe index `5`, release velocity `-900`, drag delta `-50`. -/
theorem C6_witness :
    renderInvocations ([] : List ℕ) = [] ∧
    updateSelectedItem [] id (0 : ℕ) 5 = none ∧
    (onEnd [] id (0 : ℕ) 200 ⟨200, 0⟩ (-900)).2 = none ∧
    onUpdate 0 200 (initialState [] id (0 : ℕ) 200) (-50) =
      initialState [] id (0 : ℕ) 200 := by
  obtain ⟨h1, h2, h3, h4⟩ := C6_empty_list (α := ℕ) id 0 200 (by norm_num)
  exact ⟨h1, h2 5, h3 ⟨200, 0⟩ (-900), h4 (-50)⟩

/-- Counterexample to C5: items `[10, 20, 30]` with identity ids, selected id
`99` absent from the list, spacing `200`.  `findIndex` yields `-1`, so the
initial offset is `-(-1) * 200 = 200`, which is not the index-0 offset
`-0 * 200 = 0`; the cached index is `0` as claimed. -/
theorem C5_counterexample :
    (initialState [10, 20, 30] id (99 : ℕ) 200).currentIndex = 0 ∧
    (initialState [10, 20, 30] id (99 : ℕ) 200).translateX = 200 ∧
    (initialState [10, 20, 30] id (99 : ℕ) 200).translateX ≠
      -((0 : ℤ) : ℚ) * 200 := by
  have h : findIndexJS (fun item => decide (id item = id (99 : ℕ)))
      [10, 20, 30] = -1 := by decide
  simp only [initialState, h]
  norm_num

/-- Amended C5: for a non-empty list whose ids all differ from the selected
item's id, the component still renders every item and its cached index is `0`,
but the initial offset is `+spacing` (from `-(-1) * spacing`), not the
index-0 offset. -/
theorem C5_absent_selected_item (items : List α) (getItemId : α → ι)
    [DecidableEq ι] (selectedItem : α) (s : ℚ) (hn : items ≠ [])
    (habsent : ∀ a ∈ items, getItemId a ≠ getItemId selectedItem) :
    (initialState items getItemId selectedItem s).currentIndex = 0 ∧
    (initialState items getItemId selectedItem s).translateX = s ∧
    (renderInvocations items).length = items.length := by
  have hfind : findIndexJS
      (fun item => decide (getItemId item = getItemId selectedItem)) items =
      -1 :=
    findIndexJS_eq_neg_one_of_forall _ _ fun a ha => by
      simpa using habsent a ha
  refine ⟨?_, ?_, renderInvocationsFrom_length 0 items⟩ <;>
    simp only [initialState, hfind] <;> norm_num

/-- Witness for the amended C5 at a concrete input: items `[10, 20]` with
identity ids, selected id `99`, spacing `150`. -/
theorem C5_witness :
    (initialState [10, 20] id (99 : ℕ) 150).currentIndex = 0 ∧
    (initialState [10, 20] id (99 : ℕ) 150).translateX = 150 ∧
    (renderInvocations [10, 20]).length = ([10, 20] : List ℕ).length :=
  C5_absent_selected_item [10, 20] id 99 150 (by decide) (by decide)

/-- Counterexample to C7: items `[1, 2]` with identity ids, selected id `5`
absent, spacing `100`.  At rest right after initialization the offset is
`100`, which equals `-i * 100` for no valid index `i ∈ {0, 1}`, so the at-rest
invariant fails on the initialization path. -/
theorem C7_counterexample :
    (initialState [1, 2] id (5 : ℕ) 100).translateX = 100 ∧
    (initialState [1, 2] id (5 : ℕ) 100).translateX ≠ -((0 : ℤ) : ℚ) * 100 ∧
    (initialState [1, 2] id (5 : ℕ) 100).translateX ≠ -((1 : ℤ) : ℚ) * 100 ∧
    ¬ restInvariant 2 100 (initialState [1, 2] id (5 : ℕ) 100) := by
  have h : findIndexJS (fun item => decide (id item = id (5 : ℕ))) [1, 2] =
      -1 := by decide
  simp only [initialState, h, restInvariant]
  norm_num

/-- Amended C7: for `n ≥ 1` and positive spacing, every operation that sets an
at-rest offset — a drag-release snap, a prop resynchronization to an id found
in the list, and initialization whenever the selected item's id is found —
leaves the offset at `-index * spacing` for the cached index, with the cached
index in `[0, n-1]`; that index is the unique valid index matching the
offset.  (Initialization with an absent selected id violates the invariant,
see the counterexample.) -/
theorem C7_rest_invariant (items : List α) (getItemId : α → ι) [DecidableEq ι]
    (selectedItem : α) (s : ℚ) (hn : 1 ≤ items.length) (hs : 0 < s) :
    (∀ idx : ℤ,
      restInvariant items.length s (snapToIndex items.length s idx)) ∧
    (∀ previousItemId st,
      previousItemId ≠ getItemId selectedItem →
      findIndexJS (fun item => decide (getItemId item = getItemId selectedItem))
          items ≠ -1 →
      restInvariant items.length s
        (resyncEffect items getItemId selectedItem s previousItemId st).2.1) ∧
    (findIndexJS (fun item => decide (getItemId item = getItemId selectedItem))
        items ≠ -1 →
      restInvariant items.length s
        (initialState items getItemId selectedItem s)) ∧
    (∀ st : CState, restInvariant items.length s st →
      ∀ j : ℤ, 0 ≤ j → j ≤ (items.length : ℤ) - 1 →
        st.translateX = -(j : ℚ) * s → j = st.currentIndex) := by
  refine ⟨?_, ?_, ?_, ?_⟩
  · intro idx
    exact ⟨rfl, clampIndexJS_nonneg _ _, clampIndexJS_le _ _ hn⟩
  · intro previousItemId st hprev hfind
    have h0 : 0 ≤ findIndexJS
        (fun item => decide (getItemId item = getItemId selectedItem)) items := by
      have := findIndexJS_ge_neg_one
        (fun item => decide (getItemId item = getItemId selectedItem)) items
      omega
    have hlt := findIndexJS_lt_length
      (fun item => decide (getItemId item = getItemId selectedItem)) items
    simp only [resyncEffect, if_pos hprev, if_pos hfind]
    refine ⟨rfl, h0, ?_⟩
    show findIndexJS
        (fun item => decide (getItemId item = getItemId selectedItem)) items ≤
      (items.length : ℤ) - 1
    omega
  · intro hfind
    have h0 : 0 ≤ findIndexJS
        (fun item => decide (getItemId item = getItemId selectedItem)) items := by
      have := findIndexJS_ge_neg_one
        (fun item => decide (getItemId item = getItemId selectedItem)) items
      omega
    have hlt := findIndexJS_lt_length
      (fun item => decide (getItemId item = getItemId selectedItem)) items
    have hcur : (initialState items getItemId selectedItem s).currentIndex =
        findIndexJS
          (fun item => decide (getItemId item = getItemId selectedItem))
          items := by
      simp only [initialState]
      rw [if_pos]
      exact h0
    refine ⟨?_, ?_, ?_⟩
    · rw [hcur]; rfl
    · rw [hcur]; exact h0
    · rw [hcur]; omega
  · intro st hrest j hj0 hj1 heq
    have h1 : -((st.currentIndex : ℤ) : ℚ) * s = -((j : ℤ) : ℚ) * s := by
      rw [← hrest.1, heq]
    have h2 : -((st.currentIndex : ℤ) : ℚ) = -((j : ℤ) : ℚ) :=
      mul_right_cancel₀ (ne_of_gt hs) h1
    have h3 : ((j : ℤ) : ℚ) = ((st.currentIndex : ℤ) : ℚ) := by linarith
    exact_mod_cast h3

/-- Witness for the amended C7 at a concrete input: items `[3, 4]` with
identity ids, selected id `4` (present at index `1`), spacing `50`, snap
request index `7`. -/
theorem C7_witness :
    restInvariant 2 50 (snapToIndex 2 50 7) ∧
    restInvariant 2 50 (initialState [3, 4] id (4 : ℕ) 50) := by
  obtain ⟨h1, h2, h3, h4⟩ :=
    C7_rest_invariant [3, 4] id (4 : ℕ) 50 (by decide) (by norm_num)
  exact ⟨h1 7, h3 (by decide)⟩

theorem interpolateClamp_eq_specLinearClamp (d s y0 y1 : ℚ) (hd : 0 ≤ d)
    (hs : 0 < s) : interpolateClamp d 0 s y0 y1 = specLinearClamp d s y0 y1 := by
  simp only [interpolateClamp, specLinearClamp, sub_zero]
  rcases le_or_lt s d with h | h
  · rw [min_eq_left h, max_eq_right hs.le, if_pos h, div_self (ne_of_gt hs)]
    ring
  · rw [min_eq_right h.le, max_eq_right hd, if_neg (not_le.mpr h)]

/-- Claim C8: the per-item transform is a pure function of the static index
`i` and the shared offset `t` in which the distance from the visual center is
`|t + i*s|`; scale interpolates linearly from `maxScale` at distance `0` to
`minScale` at distance `s`, opacity from `1` to `0.6`, both held constant for
distances beyond `s`. -/
theorem C8_item_transform (w sz s mn mx : ℚ) (i : ℕ) (t : ℚ) (hs : 0 < s) :
    itemDistanceFromCenter w sz s i t = |t + (i : ℚ) * s| ∧
    (animatedStyle w sz s mn mx i t).scale =
      specLinearClamp |t + (i : ℚ) * s| s mx mn ∧
    (animatedStyle w sz s mn mx i t).opacity =
      specLinearClamp |t + (i : ℚ) * s| s 1 (6 / 10) := by
  have hd : itemDistanceFromCenter w sz s i t = |t + (i : ℚ) * s| := by
    have harg : w / 2 - sz / 2 + t + (i : ℚ) * s + sz / 2 - w / 2 =
        t + (i : ℚ) * s := by ring
    simp only [itemDistanceFromCenter]
    rw [harg]
  have habs : (0 : ℚ) ≤ |t + (i : ℚ) * s| := abs_nonneg _
  refine ⟨hd, ?_, ?_⟩
  · have h1 : (animatedStyle w sz s mn mx i t).scale =
        interpolateClamp (itemDistanceFromCenter w sz s i t) 0 s mx mn := rfl
    rw [h1, hd, interpolateClamp_eq_specLinearClamp _ _ _ _ habs hs]
  · have h1 : (animatedStyle w sz s mn mx i t).opacity =
        interpolateClamp (itemDistanceFromCenter w sz s i t) 0 s
          MAX_OPACITY MIN_OPACITY := rfl
    rw [h1, hd, interpolateClamp_eq_specLinearClamp _ _ _ _ habs hs]
    rfl

/-- Witness for C8 at a concrete input: screen width `400`, item size `192`,
spacing `200`, scales `[0.7, 1]`, index `1`, offset `-100`: distance `100`,
scale `0.85`, opacity `0.8`. -/
theorem C8_witness :
    itemDistanceFromCenter 400 192 200 1 (-100) = 100 ∧
    (animatedStyle 400 192 200 (7 / 10) 1 1 (-100)).scale = 17 / 20 ∧
    (animatedStyle 400 192 200 (7 / 10) 1 1 (-100)).opacity = 4 / 5 := by
  obtain ⟨h1, h2, h3⟩ :=
    C8_item_transform 400 192 200 (7 / 10) 1 1 (-100) (by norm_num)
  have habs : |(-100 : ℚ) + ((1 : ℕ) : ℚ) * 200| = 100 := by norm_num
  rw [habs] at h1 h2 h3
  refine ⟨h1, ?_, ?_⟩
  · rw [h2]; norm_num [specLinearClamp]
  · rw [h3]; norm_num [specLinearClamp]

end Carousel
